import Mathlib

/-!
Verification of the sopel-twitter plugin (src/sopel_modules/twitter/twitter.py)
against its natural-language specification.  Strings are modelled as lists of
characters; dynamic JSON fields the code may find absent are Option fields;
a result of none models an uncaught Python exception.
-/

namespace SopelTwitter

/-- Strings are modelled as lists of characters. -/
abbrev Str := List Char

/-- Python whitespace class of the re module, modelled over the ASCII
whitespace characters. -/
def isPySpace (c : Char) : Bool :=
  c = ' ' || c = '\t' || c = '\n' || c = '\r' || c = '\x0b' || c = '\x0c'

/-- Python str.replace for an empty pattern: the replacement is inserted at
every position, including both ends. -/
def emptyPatRepl (e : Str) : Str → Str
  | [] => e
  | c :: rest => e ++ c :: emptyPatRepl e rest

/-- Worker for Python str.replace with a nonempty pattern u: scans left to
right; a positive skip count consumes characters already matched by u. -/
def replGo (u e : Str) : Str → Nat → Str
  | [], _ => []
  | _ :: rest, Nat.succ k => replGo u e rest k
  | c :: rest, 0 =>
    if u.isPrefixOf (c :: rest) then e ++ replGo u e rest (u.length - 1)
    else c :: replGo u e rest 0

/-- Python str.replace: t.replace(u, e), replacing every non-overlapping
occurrence of u in t by e, scanning left to right. -/
def pyReplace (t u e : Str) : Str :=
  if u = [] then emptyPatRepl e t else replGo u e t 0

/-- Substring occurrence test: u occurs somewhere in t. -/
def containsSub (u : Str) : Str → Bool
  | [] => u.isPrefixOf ([] : Str)
  | c :: rest => u.isPrefixOf (c :: rest) || containsSub u rest

/-- Matcher for the regex fragment of a whitespace star followed by the
literal u, anchored at the start of the input; greedy on the whitespace
with backtracking, as in the Python re engine.  Returns the remainder of
the input after the match. -/
def wsUrl (u : Str) : Str → Option Str
  | [] => if u.isPrefixOf ([] : Str) then some [] else none
  | c :: rest =>
    if isPySpace c then
      match wsUrl u rest with
      | some r => some r
      | none =>
        if u.isPrefixOf (c :: rest) then some ((c :: rest).drop u.length) else none
    else
      if u.isPrefixOf (c :: rest) then some ((c :: rest).drop u.length) else none

/-- Worker for re.sub of the pattern whitespace star, literal u, whitespace
star, with empty replacement: at each position try the pattern; on a match
drop it together with the trailing whitespace and continue after it, using
a skip counter so that the recursion is structural. -/
def subGo (u : Str) : Str → Nat → Str
  | [], _ => []
  | _ :: rest, Nat.succ k => subGo u rest k
  | c :: rest, 0 =>
    match wsUrl u (c :: rest) with
    | some rem =>
      let rem2 := rem.dropWhile isPySpace
      let k := (c :: rest).length - rem2.length
      if k = 0 then c :: subGo u rest 0 else subGo u rest (k - 1)
    | none => c :: subGo u rest 0

/-- Python re.sub with pattern whitespace star, re.escape(u), whitespace
star, and empty replacement, as used to strip the quoted-status link. -/
def reSubRemove (u t : Str) : Str := subGo u t 0

/-- Python s.rsplit(slash, 1)[1]: the part of s after its last slash, or
none (modelling the IndexError) when s contains no slash. -/
def lastSegAfterSlash : Str → Option Str
  | [] => none
  | c :: rest =>
    match lastSegAfterSlash rest with
    | some r => some r
    | none => if c = '/' then some rest else none

/-- Group a reversed digit string in blocks of three, comma separated. -/
def commaGroupRev : Str → Str
  | a :: b :: c :: d :: rest => a :: b :: c :: ',' :: commaGroupRev (d :: rest)
  | l => l

/-- Python format specifier comma for a natural number: decimal digits with
thousands separators. -/
def commaFmt (n : Nat) : Str :=
  (commaGroupRev (Nat.toDigits 10 n).reverse).reverse

/-- Plain decimal rendering of a natural number. -/
def natStr (n : Nat) : Str := Nat.toDigits 10 n

/-- A URL entity: the shortened form and its expanded form. -/
structure UrlEntity where
  url : Str
  expanded_url : Str
deriving DecidableEq

/-- A media attachment entity: the shortened URL embedded in the text and
the canonical https media URL. -/
structure MediaEntity where
  url : Str
  media_url_https : Str
deriving DecidableEq

/-- The author fields of a tweet read by the formatter. -/
structure TwitterUser where
  name : Str
  screen_name : Str
deriving DecidableEq

/-- A tweet payload with exactly the fields the module reads.  Option
fields model dynamic JSON keys whose absence the code observes: full_text
is read under a try for KeyError with text as the fallback, and
quoted_status_id_str is read only for quote tweets.  entities_urls models
tweet.entities.urls and extended_media models the safe get chain of
get_extended_media. -/
structure Tweet where
  full_text : Option Str
  text : Option Str
  entities_urls : List UrlEntity
  extended_media : List MediaEntity
  is_quote_status : Bool
  quoted_status_id_str : Option Str
  user : TwitterUser
  retweet_count : Nat
  favorite_count : Nat
  created_at : Str
deriving DecidableEq

/-- get_extended_media: the media list of the extended entities, or empty. -/
def get_extended_media (t : Tweet) : List MediaEntity := t.extended_media

/-- Text selection of format_tweet: try full_text, on KeyError fall back to
text; none models an uncaught KeyError on both. -/
def baseText (t : Tweet) : Option Str :=
  match t.full_text with
  | some s => some s
  | none => t.text

/-- Newline stage of format_tweet: replace every newline by the line-break
glyph U+23CE surrounded by single spaces. -/
def newlineStage (s : Str) : Str :=
  pyReplace s ['\n'] [' ', '⏎', ' ']

/-- Quote-link removal loop of format_tweet: scan the URL entities; for the
first one whose expanded URL has final path segment equal to the quoted
status id, remove that URL with surrounding whitespace via re.sub and
break; none models the IndexError raised by rsplit indexing when an
examined expanded URL contains no slash. -/
def removeQuoteLink (qid : Str) : List UrlEntity → Str → Option Str
  | [], text => some text
  | en :: rest, text =>
    match lastSegAfterSlash en.expanded_url with
    | none => none
    | some seg =>
      if seg = qid then some (reSubRemove en.url text)
      else removeQuoteLink qid rest text

/-- One step of the media loop of format_tweet: replace the shortened URL
by the canonical one; when the text comes back unchanged, append the
canonical URL to the end instead. -/
def mediaStep (text : Str) (m : MediaEntity) : Str :=
  let replaced := pyReplace text m.url m.media_url_https
  if replaced = text then text ++ m.media_url_https else replaced

/-- The media loop of format_tweet over all attachments, in order. -/
def expandMedia (text : Str) (ms : List MediaEntity) : Str :=
  ms.foldl mediaStep text

/-- The URL loop of format_tweet: replace every shortened URL entity by its
expanded form, in list order. -/
def expandUrls (text : Str) (urls : List UrlEntity) : Str :=
  urls.foldl (fun acc en => pyReplace acc en.url en.expanded_url) text

/-- format_tweet: build the display line for a tweet; none models an
uncaught exception (both text fields missing, quoted status id missing on
a quote tweet, or the IndexError in the quote-link scan). -/
def format_tweet (t : Tweet) : Option Str :=
  match baseText t with
  | none => none
  | some raw =>
    let text1 := newlineStage raw
    let afterQuote :=
      if t.is_quote_status then
        match t.quoted_status_id_str with
        | none => none
        | some qid => removeQuoteLink qid t.entities_urls text1
      else some text1
    match afterQuote with
    | none => none
    | some text2 =>
      some (t.user.name ++ " (@".toList ++ t.user.screen_name ++ "): ".toList
        ++ expandUrls (expandMedia text2 (get_extended_media t)) t.entities_urls)

/-- The named-group values of a match of the first URL pattern of the
dispatcher: the user group always participates; the status group is
optional. -/
structure Match1 where
  user : Str
  status : Option Str
deriving DecidableEq

/-- Where get_url routes a trigger: output_user with a screen name,
output_status with a status id (an Option because the code can pass the
Python value None through), or silently ignored. -/
inductive Route where
  | toUser : Option Str → Route
  | toStatus : Option Str → Route
  | ignored : Route
deriving DecidableEq

/-- Python match.group applied to the status group of a match of the first
pattern: the group exists in the pattern, so no IndexError is possible; a
group that did not participate yields the Python value None, modelled as
ok none. -/
def rule1_group_status (m : Match1) : Except Unit (Option Str) :=
  Except.ok m.status

/-- Python match.group applied to the user group of a match of the first
pattern; the group always participates. -/
def rule1_group_user (m : Match1) : Except Unit (Option Str) :=
  Except.ok (some m.user)

/-- get_url as invoked with a match of the first URL pattern: try the
status group, routing to output_user only when that raises IndexError;
otherwise route to output_status with whatever the status group held. -/
def get_url (m : Match1) : Route :=
  match rule1_group_status m with
  | Except.error _ =>
    match rule1_group_user m with
    | Except.error _ => Route.ignored
    | Except.ok u => Route.toUser u
  | Except.ok s => Route.toStatus s

/-- Literal-prefix matcher: drop the literal p from the front of s. -/
def stripPre (p s : Str) : Option Str :=
  if p.isPrefixOf s then some (s.drop p.length) else none

/-- The first URL pattern of the dispatcher, matched at the start of the
URL: the literal http, an optional s, the literal colon slash slash
twitter.com slash, then the user group as a greedy run of non-slash
characters, then optionally a literal slash status slash followed by a
nonempty greedy digit run bound to the status group, then anything. -/
def matchTwitterUrl (s : Str) : Option Match1 :=
  match stripPre ("http".toList) s with
  | none => none
  | some r1 =>
    let r2 :=
      match stripPre ("s".toList) r1 with
      | some x => x
      | none => r1
    match stripPre ("://twitter.com/".toList) r2 with
    | none => none
    | some r3 =>
      let user := r3.takeWhile (fun c => c ≠ '/')
      let rest := r3.dropWhile (fun c => c ≠ '/')
      match stripPre ("/status/".toList) rest with
      | none => some ⟨user, none⟩
      | some r4 =>
        let ds := r4.takeWhile Char.isDigit
        if ds = [] then some ⟨user, none⟩ else some ⟨user, some ds⟩

/-- An entry of an errors list in a Twitter API response body. -/
structure ApiErr where
  code : Option Nat
  message : Option Str
deriving DecidableEq

/-- The fixed first part of every error message. -/
def errBase : Str := "Twitter returned an error".toList

/-- The fallback clause of output_status when the first error entry has no
message field. -/
def statusFallback : Str := ". :( Maybe the tweet was deleted?".toList

/-- The fallback clause of output_user when the first error entry has no
message field. -/
def userFallback : Str := ". :( Maybe that user doesn\x27t exist?".toList

/-- The error-message builder shared by output_status and output_user:
start from the fixed base; with a message field append colon, space and
the message, then a final period when the last character is not already a
period; without a message field append the fixed fallback clause. -/
def mkErrMsg (fallback : Str) (e : ApiErr) : Str :=
  match e.message with
  | some m =>
    let msg := errBase ++ ": ".toList ++ m
    if msg.getLast? = some '.' then msg else msg ++ ['.']
  | none => errBase ++ fallback

/-- The JSON body of a status lookup: a possibly empty errors list, the
tweet fields, and the quoted status hoisted to a sibling field so that the
model stays non-recursive (the code reads it only one level deep). -/
structure StatusBody where
  errors : List ApiErr
  tweet : Tweet
  quoted_status : Option Tweet

/-- The fixed status template line. -/
def statusLine (tw : Str) (rts hearts : Nat) (posted : Str) : Str :=
  "[Twitter] ".toList ++ tw ++ " | ".toList ++ natStr rts ++ " RTs | ".toList
    ++ natStr hearts ++ " ♥s | Posted: ".toList ++ posted

/-- output_status as the list of lines said to the channel.  The HTTP layer
and format_time are external collaborators, so the formatted timestamp is
obtained through a function parameter; none models an uncaught exception.
On a non-empty errors list exactly the one error line is said. -/
def output_status (b : StatusBody) (showQuoted : Bool) (fmtTime : Str → Str) :
    Option (List Str) :=
  match b.errors with
  | e :: _ => some [mkErrMsg statusFallback e]
  | [] =>
    match format_tweet b.tweet with
    | none => none
    | some ftw =>
      let line1 := statusLine ftw b.tweet.retweet_count b.tweet.favorite_count
        (fmtTime b.tweet.created_at)
      if b.tweet.is_quote_status && showQuoted then
        match b.quoted_status with
        | none => none
        | some q =>
          match format_tweet q with
          | none => none
          | some fq =>
            some [line1, statusLine ("Quoting: ".toList ++ fq) q.retweet_count
              q.favorite_count (fmtTime q.created_at)]
      else some [line1]

/-- A user profile payload with the fields output_user reads; Option fields
model keys whose truthiness the code checks. -/
structure UserProfile where
  name : Str
  screen_name : Str
  verified : Bool
  protected_ : Bool
  location : Option Str
  url : Option Str
  url_entities : List UrlEntity
  description : Option Str
  description_urls : List UrlEntity
  friends_count : Nat
  followers_count : Nat
  statuses_count : Nat
  favourites_count : Nat
  created_at : Str

/-- Python truthiness of an optional string: present and nonempty. -/
def truthy : Option Str → Bool
  | some s => !s.isEmpty
  | none => false

/-- The url local of output_user: when the top level url field is truthy,
take the expanded URL of the first url entity of the profile, where an
empty entity list raises IndexError (none); otherwise the empty string. -/
def userUrl (u : UserProfile) : Option Str :=
  if truthy u.url then
    match u.url_entities with
    | [] => none
    | en :: _ => some en.expanded_url
  else some []

/-- The bio local of output_user: when the description is truthy, the
description with every description URL entity expanded, else empty. -/
def userBio (u : UserProfile) : Str :=
  match u.description with
  | some d => if d.isEmpty then [] else expandUrls d u.description_urls
  | none => []

/-- The location segment of the user template: separator plus location when
truthy, else nothing. -/
def locationSeg (u : UserProfile) : Str :=
  match u.location with
  | some l => if l.isEmpty then [] else " | ".toList ++ l
  | none => []

/-- An optional template segment: separator plus the string when nonempty. -/
def optSeg (s : Str) : Str :=
  if s.isEmpty then [] else " | ".toList ++ s

/-- The assembled user line of output_user, before the external sendable
length truncation; none models the IndexError of userUrl.  The join date
comes from the external format_time and is a parameter. -/
def userLine (u : UserProfile) (joined : Str) : Option Str :=
  match userUrl u with
  | none => none
  | some url =>
    some ("[Twitter] ".toList ++ u.name ++ " (@".toList ++ u.screen_name
      ++ ")".toList
      ++ (if u.verified then " ✔️".toList else [])
      ++ (if u.protected_ then " 🔒".toList else [])
      ++ locationSeg u
      ++ optSeg url
      ++ " | ".toList ++ commaFmt u.friends_count ++ " friends, ".toList
      ++ commaFmt u.followers_count ++ " followers | ".toList
      ++ commaFmt u.statuses_count ++ " tweets, ".toList
      ++ commaFmt u.favourites_count ++ " ♥s | Joined: ".toList ++ joined
      ++ optSeg (userBio u))

/-- The body of a user lookup response. -/
structure UserBody where
  errors : List ApiErr
  profile : UserProfile

/-- output_user as the list of lines said: on a non-empty errors list
exactly the one error line, else the assembled user line. -/
def output_user (b : UserBody) (joined : Str) : Option (List Str) :=
  match b.errors with
  | e :: _ => some [mkErrMsg userFallback e]
  | [] =>
    match userLine b.profile joined with
    | none => none
    | some line => some [line]

/-- The quote scan examines entities up to and including the first match;
scanOk holds when every examined expanded URL contains a slash, i.e. when
no IndexError occurs during the scan. -/
def scanOk (qid : Str) : List UrlEntity → Bool
  | [] => true
  | en :: rest =>
    match lastSegAfterSlash en.expanded_url with
    | none => false
    | some seg => if seg = qid then true else scanOk qid rest

/-! Shared lemmas about the string model. -/

/-- A pending skip simply drops characters before resuming the scan. -/
theorem replGo_skip (u e : Str) : ∀ (t : Str) (k : Nat),
    replGo u e t k = replGo u e (t.drop k) 0 := by
  intro t
  induction t with
  | nil => intro k; cases k <;> simp [replGo]
  | cons c rest ih =>
    intro k
    cases k with
    | zero => rfl
    | succ k =>
      have h1 : replGo u e (c :: rest) (Nat.succ k) = replGo u e rest k := rfl
      rw [h1, ih k]
      rfl

/-- Scan equation when the pattern does not match at the head. -/
theorem replGo_cons_neg (u e : Str) (c : Char) (rest : Str)
    (h : u.isPrefixOf (c :: rest) = false) :
    replGo u e (c :: rest) 0 = c :: replGo u e rest 0 := by
  simp [replGo, h]

/-- Scan equation when the pattern matches at the head. -/
theorem replGo_cons_pos (u e : Str) (c : Char) (rest : Str) (hu : u ≠ [])
    (h : u.isPrefixOf (c :: rest) = true) :
    replGo u e (c :: rest) 0 = e ++ replGo u e ((c :: rest).drop u.length) 0 := by
  have h1 : replGo u e (c :: rest) 0 = e ++ replGo u e rest (u.length - 1) := by
    simp [replGo, h]
  rw [h1, replGo_skip]
  cases u with
  | nil => exact absurd rfl hu
  | cons a us => simp

/-- A Boolean prefix yields an append decomposition. -/
theorem isPrefixOf_decomp {u t : Str} (h : u.isPrefixOf t = true) :
    t = u ++ t.drop u.length := by
  obtain ⟨s, hs⟩ := List.isPrefixOf_iff_prefix.mp h
  rw [← hs, List.drop_left]

/-- A Boolean prefix is no longer than the whole. -/
theorem isPrefixOf_length_le {u t : Str} (h : u.isPrefixOf t = true) :
    u.length ≤ t.length :=
  (List.isPrefixOf_iff_prefix.mp h).length_le

/-- Replacement by a string no longer than the pattern never lengthens. -/
theorem replGo_length_le (u e : Str) (hu : u ≠ []) (he : e.length ≤ u.length) :
    ∀ (n : Nat) (t : Str), t.length ≤ n → (replGo u e t 0).length ≤ t.length := by
  intro n
  induction n with
  | zero =>
    intro t ht
    have : t = [] := List.length_eq_zero.mp (Nat.le_zero.mp ht)
    subst this
    simp [replGo]
  | succ n ih =>
    intro t ht
    cases t with
    | nil => simp [replGo]
    | cons c rest =>
      cases hp : u.isPrefixOf (c :: rest) with
      | false =>
        rw [replGo_cons_neg u e c rest hp]
        have := ih rest (by simpa using Nat.lt_succ_iff.mp (Nat.lt_of_lt_of_le (Nat.lt_succ_self _) ht))
        simpa using this
      | true =>
        rw [replGo_cons_pos u e c rest hu hp]
        have hul : u.length ≤ (c :: rest).length := isPrefixOf_length_le hp
        have hu1 : 1 ≤ u.length := List.length_pos.mpr hu
        have hsum : ((c :: rest).drop u.length).length + u.length = (c :: rest).length := by
          rw [List.length_drop]
          exact Nat.sub_add_cancel hul
        have hrec : (replGo u e ((c :: rest).drop u.length) 0).length ≤
            ((c :: rest).drop u.length).length := by
          apply ih
          simp only [List.length_cons] at ht hsum ⊢
          omega
        rw [List.length_append]
        simp only [List.length_cons] at ht hsum ⊢
        omega

/-- Replacement by a string at least as long as the pattern never shortens. -/
theorem replGo_length_ge (u e : Str) (hu : u ≠ []) (he : u.length ≤ e.length) :
    ∀ (n : Nat) (t : Str), t.length ≤ n → t.length ≤ (replGo u e t 0).length := by
  intro n
  induction n with
  | zero =>
    intro t ht
    have : t = [] := List.length_eq_zero.mp (Nat.le_zero.mp ht)
    subst this
    simp [replGo]
  | succ n ih =>
    intro t ht
    cases t with
    | nil => simp [replGo]
    | cons c rest =>
      cases hp : u.isPrefixOf (c :: rest) with
      | false =>
        rw [replGo_cons_neg u e c rest hp]
        have := ih rest (by simp only [List.length_cons] at ht; omega)
        simpa using this
      | true =>
        rw [replGo_cons_pos u e c rest hu hp]
        have hul : u.length ≤ (c :: rest).length := isPrefixOf_length_le hp
        have hu1 : 1 ≤ u.length := List.length_pos.mpr hu
        have hsum : ((c :: rest).drop u.length).length + u.length = (c :: rest).length := by
          rw [List.length_drop]
          exact Nat.sub_add_cancel hul
        have hrec : ((c :: rest).drop u.length).length ≤
            (replGo u e ((c :: rest).drop u.length) 0).length := by
          apply ih
          simp only [List.length_cons] at ht hsum ⊢
          omega
        rw [List.length_append]
        simp only [List.length_cons] at ht hsum ⊢
        omega

/-- With an occurrence present, a strictly shorter replacement strictly
shortens the text. -/
theorem replGo_length_lt (u e : Str) (hu : u ≠ []) (he : e.length < u.length) :
    ∀ (n : Nat) (t : Str), t.length ≤ n → containsSub u t = true →
      (replGo u e t 0).length < t.length := by
  intro n
  induction n with
  | zero =>
    intro t ht hc
    have : t = [] := List.length_eq_zero.mp (Nat.le_zero.mp ht)
    subst this
    cases u with
    | nil => exact absurd rfl hu
    | cons a us => simp [containsSub, List.isPrefixOf] at hc
  | succ n ih =>
    intro t ht hc
    cases t with
    | nil =>
      cases u with
      | nil => exact absurd rfl hu
      | cons a us => simp [containsSub, List.isPrefixOf] at hc
    | cons c rest =>
      cases hp : u.isPrefixOf (c :: rest) with
      | false =>
        have hcr : containsSub u rest = true := by
          simpa [containsSub, hp] using hc
        rw [replGo_cons_neg u e c rest hp]
        have := ih rest (by simp only [List.length_cons] at ht; omega) hcr
        simp only [List.length_cons]
        omega
      | true =>
        rw [replGo_cons_pos u e c rest hu hp]
        have hul : u.length ≤ (c :: rest).length := isPrefixOf_length_le hp
        have hu1 : 1 ≤ u.length := List.length_pos.mpr hu
        have hsum : ((c :: rest).drop u.length).length + u.length = (c :: rest).length := by
          rw [List.length_drop]
          exact Nat.sub_add_cancel hul
        have hrec : (replGo u e ((c :: rest).drop u.length) 0).length ≤
            ((c :: rest).drop u.length).length := by
          apply replGo_length_le u e hu (Nat.le_of_lt he) (((c :: rest).drop u.length).length)
          exact le_rfl
        rw [List.length_append]
        simp only [List.length_cons] at hsum ⊢
        omega

/-- With an occurrence present, a strictly longer replacement strictly
lengthens the text. -/
theorem replGo_length_gt (u e : Str) (hu : u ≠ []) (he : u.length < e.length) :
    ∀ (n : Nat) (t : Str), t.length ≤ n → containsSub u t = true →
      t.length < (replGo u e t 0).length := by
  intro n
  induction n with
  | zero =>
    intro t ht hc
    have : t = [] := List.length_eq_zero.mp (Nat.le_zero.mp ht)
    subst this
    cases u with
    | nil => exact absurd rfl hu
    | cons a us => simp [containsSub, List.isPrefixOf] at hc
  | succ n ih =>
    intro t ht hc
    cases t with
    | nil =>
      cases u with
      | nil => exact absurd rfl hu
      | cons a us => simp [containsSub, List.isPrefixOf] at hc
    | cons c rest =>
      cases hp : u.isPrefixOf (c :: rest) with
      | false =>
        have hcr : containsSub u rest = true := by
          simpa [containsSub, hp] using hc
        rw [replGo_cons_neg u e c rest hp]
        have := ih rest (by simp only [List.length_cons] at ht; omega) hcr
        simp only [List.length_cons]
        omega
      | true =>
        rw [replGo_cons_pos u e c rest hu hp]
        have hul : u.length ≤ (c :: rest).length := isPrefixOf_length_le hp
        have hu1 : 1 ≤ u.length := List.length_pos.mpr hu
        have hsum : ((c :: rest).drop u.length).length + u.length = (c :: rest).length := by
          rw [List.length_drop]
          exact Nat.sub_add_cancel hul
        have hrec : ((c :: rest).drop u.length).length ≤
            (replGo u e ((c :: rest).drop u.length) 0).length := by
          apply replGo_length_ge u e hu (Nat.le_of_lt he) (((c :: rest).drop u.length).length)
          exact le_rfl
        rw [List.length_append]
        simp only [List.length_cons] at hsum ⊢
        omega

/-- With an occurrence present and a distinct same-length replacement the
result differs from the input. -/
theorem replGo_ne_of_len_eq (u e : Str) (hu : u ≠ []) (hlen : e.length = u.length)
    (hne : e ≠ u) :
    ∀ (n : Nat) (t : Str), t.length ≤ n → containsSub u t = true →
      replGo u e t 0 ≠ t := by
  intro n
  induction n with
  | zero =>
    intro t ht hc
    have : t = [] := List.length_eq_zero.mp (Nat.le_zero.mp ht)
    subst this
    cases u with
    | nil => exact absurd rfl hu
    | cons a us => simp [containsSub, List.isPrefixOf] at hc
  | succ n ih =>
    intro t ht hc
    cases t with
    | nil =>
      cases u with
      | nil => exact absurd rfl hu
      | cons a us => simp [containsSub, List.isPrefixOf] at hc
    | cons c rest =>
      cases hp : u.isPrefixOf (c :: rest) with
      | false =>
        have hcr : containsSub u rest = true := by
          simpa [containsSub, hp] using hc
        rw [replGo_cons_neg u e c rest hp]
        intro heq
        have htail : replGo u e rest 0 = rest := (List.cons.inj heq).2
        exact ih rest (by simp only [List.length_cons] at ht; omega) hcr htail
      | true =>
        rw [replGo_cons_pos u e c rest hu hp]
        intro heq
        have hdec : (c :: rest) = u ++ (c :: rest).drop u.length := isPrefixOf_decomp hp
        rw [hdec] at heq
        have := List.append_inj heq (by rw [hlen])
        exact hne this.1

/-- Replacement with no occurrence present is the identity. -/
theorem replGo_id_of_not_contains (u e : Str) :
    ∀ t : Str, containsSub u t = false → replGo u e t 0 = t := by
  intro t
  induction t with
  | nil => intro _; simp [replGo]
  | cons c rest ih =>
    intro hc
    have h1 : u.isPrefixOf (c :: rest) = false := by
      cases h : u.isPrefixOf (c :: rest) with
      | false => rfl
      | true => simp [containsSub, h] at hc
    have h2 : containsSub u rest = false := by
      simpa [containsSub, h1] using hc
    rw [replGo_cons_neg u e c rest h1, ih h2]

/-- Python str.replace with no occurrence of the pattern is the identity. -/
theorem pyReplace_of_not_contains (t u e : Str) (hc : containsSub u t = false) :
    pyReplace t u e = t := by
  have hu : u ≠ [] := by
    intro h
    subst h
    cases t <;> simp [containsSub, List.isPrefixOf] at hc
  rw [pyReplace, if_neg hu]
  exact replGo_id_of_not_contains u e t hc

/-- Python str.replace with an occurrence of the pattern and a replacement
different from the pattern changes the text. -/
theorem pyReplace_ne (t u e : Str) (hu : u ≠ []) (hne : e ≠ u)
    (hc : containsSub u t = true) : pyReplace t u e ≠ t := by
  rw [pyReplace, if_neg hu]
  rcases Nat.lt_trichotomy e.length u.length with h | h | h
  · have hlt := replGo_length_lt u e hu h t.length t le_rfl hc
    intro heq
    rw [heq] at hlt
    omega
  · exact replGo_ne_of_len_eq u e hu h hne t.length t le_rfl hc
  · have hgt := replGo_length_gt u e hu h t.length t le_rfl hc
    intro heq
    rw [heq] at hgt
    omega

/-- The last element of an append with a nonempty right part. -/
theorem getLast?_append_ne (a b : Str) (hb : b ≠ []) :
    (a ++ b).getLast? = b.getLast? :=
  List.getLast?_append_of_ne_nil a hb

/-- A scan declared safe by scanOk reaches a result on any text. -/
theorem removeQuoteLink_isSome (qid : Str) :
    ∀ (urls : List UrlEntity) (text : Str), scanOk qid urls = true →
      ∃ r, removeQuoteLink qid urls text = some r := by
  intro urls
  induction urls with
  | nil => intro text _; exact ⟨text, rfl⟩
  | cons en rest ih =>
    intro text h
    cases hseg : lastSegAfterSlash en.expanded_url with
    | none => simp [scanOk, hseg] at h
    | some seg =>
      by_cases he : seg = qid
      · subst he
        exact ⟨reSubRemove en.url text, by simp [removeQuoteLink, hseg]⟩
      · have h2 : scanOk qid rest = true := by simpa [scanOk, hseg, he] using h
        obtain ⟨r, hr⟩ := ih text h2
        exact ⟨r, by simp [removeQuoteLink, hseg, he, hr]⟩

/-- Newline stage equation at a newline head. -/
theorem newsCons_nl (s : Str) :
    newlineStage ('\n' :: s) = ' ' :: '⏎' :: ' ' :: newlineStage s := by
  simp [newlineStage, pyReplace, replGo, List.isPrefixOf]

/-- Newline stage equation at a non-newline head. -/
theorem newsCons_other (c : Char) (s : Str) (h : c ≠ '\n') :
    newlineStage (c :: s) = c :: newlineStage s := by
  have hb : ('\n' == c) = false := beq_eq_false_iff_ne.mpr (Ne.symm h)
  simp [newlineStage, pyReplace, replGo, List.isPrefixOf, hb]

/-- No raw newline survives the newline stage. -/
theorem newsNoNl : ∀ s : Str, '\n' ∉ newlineStage s := by
  intro s
  induction s with
  | nil => simp [newlineStage, pyReplace, replGo]
  | cons c rest ih =>
    by_cases hc : c = '\n'
    · subst hc
      rw [newsCons_nl]
      intro hmem
      rcases List.mem_cons.mp hmem with h1 | hmem
      · exact absurd h1 (by decide)
      rcases List.mem_cons.mp hmem with h2 | hmem
      · exact absurd h2 (by decide)
      rcases List.mem_cons.mp hmem with h3 | hmem
      · exact absurd h3 (by decide)
      · exact ih hmem
    · rw [newsCons_other c rest hc]
      intro hmem
      rcases List.mem_cons.mp hmem with h1 | hmem
      · exact hc h1.symm
      · exact ih hmem

/-! Concrete payloads used by the claim theorems. -/

/-- Quote tweet whose quote-link URL occurs twice in the text. -/
def cexC2 : Tweet :=
  ⟨some ("A t.co/q B t.co/q".toList), none, [⟨"t.co/q".toList, "x/99".toList⟩], [],
   true, some ("99".toList), ⟨"N".toList, "s".toList⟩, 0, 0, []⟩

/-- The round-trip example tweet of the specification. -/
def exC3 : Tweet :=
  ⟨some ("check this out t.co/abc".toList), none,
   [⟨"t.co/abc".toList, "http://example.com/page".toList⟩], [],
   false, none, ⟨"N".toList, "s".toList⟩, 0, 0, []⟩

/-- Tweet whose single URL entity expands to a URL that itself contains the
shortened form as a substring. -/
def cexC3 : Tweet :=
  ⟨some ("see t.co/abc".toList), none,
   [⟨"t.co/abc".toList, "http://t.co/abc/x".toList⟩], [],
   false, none, ⟨"N".toList, "s".toList⟩, 0, 0, []⟩

/-- Tweet with one media attachment whose shortened URL occurs in the text
and equals its canonical media URL. -/
def cexC4 : Tweet :=
  ⟨some ("a u".toList), none, [], [⟨"u".toList, "u".toList⟩],
   false, none, ⟨"N".toList, "s".toList⟩, 0, 0, []⟩

/-- Tweet whose author name contains a raw newline. -/
def cexC5 : Tweet :=
  ⟨some ("hi".toList), none, [], [],
   false, none, ⟨['A', '\n', 'B'], "s".toList⟩, 0, 0, []⟩

/-- Tweet lacking the extended text field. -/
def exC6 : Tweet :=
  ⟨none, some ("just text".toList), [], [],
   false, none, ⟨"N".toList, "s".toList⟩, 0, 0, []⟩

/-- A tweet payload unused on the error path. -/
def dummyTweet : Tweet :=
  ⟨some [], none, [], [], false, none, ⟨[], []⟩, 0, 0, []⟩

/-- A profile payload unused on the error path. -/
def dummyProfile : UserProfile :=
  ⟨[], [], false, false, none, none, [], none, [], 0, 0, 0, 0, []⟩

/-- Status body carrying the error entry with code 144 and no message. -/
def exC7Status : StatusBody := ⟨[⟨some 144, none⟩], dummyTweet, none⟩

/-- User body carrying the error entry with code 50 and no message. -/
def exC7User : UserBody := ⟨[⟨some 50, none⟩], dummyProfile⟩

/-- Verified, unprotected profile with no location, url or bio. -/
def exC8 : UserProfile :=
  ⟨"Ada".toList, "ada".toList, true, false, none, none, [], none, [],
   1234, 5, 67, 8, []⟩

/-- Mixed profile: location present while url and bio are absent, and the
glyph flags differ from the specification example. -/
def exC8b : UserProfile :=
  ⟨"Bob".toList, "bob".toList, false, true, some ("Paris".toList), none, [],
   none, [], 1, 2, 3, 4, []⟩

/-- Quote tweet with an examined expanded URL that contains no slash. -/
def cexC10 : Tweet :=
  ⟨some ("x".toList), none, [⟨"u".toList, "noslash".toList⟩], [],
   true, some ("5".toList), ⟨"N".toList, "s".toList⟩, 0, 0, []⟩

/-- Quote tweet on which the quote scan is safe. -/
def exC10 : Tweet :=
  ⟨some ("hi t.co/q".toList), none, [⟨"t.co/q".toList, "a/9".toList⟩], [],
   true, some ("9".toList), ⟨"N".toList, "s".toList⟩, 0, 0, []⟩

/-! Claim theorems. -/

/-- C1 (code bug): for the profile URL with no status segment the first
pattern matches with user someuser and a non-participating status group,
and get_url routes it to output_status with the Python value None instead
of to output_user: match.group on an existing optional group returns None
rather than raising IndexError, so the user branch is unreachable.  When a
status id is present, routing to the status path with that id does hold. -/
theorem get_url_profile_link_misrouted :
    matchTwitterUrl ("https://twitter.com/someuser".toList) =
      some ⟨"someuser".toList, none⟩ ∧
    get_url ⟨"someuser".toList, none⟩ = Route.toStatus none ∧
    matchTwitterUrl ("https://twitter.com/someuser/status/123".toList) =
      some ⟨"someuser".toList, some ("123".toList)⟩ ∧
    get_url ⟨"someuser".toList, some ("123".toList)⟩ =
      Route.toStatus (some ("123".toList)) := by
  decide

/-- C2 counterexample: the text of cexC2 contains the quote-link URL twice;
re.sub removes both occurrences, so the claimed single removal (which would
leave one copy, later expanded to x/99) does not happen: the final text is
AB with no trace of either occurrence. -/
theorem quote_link_removal_counterexample :
    format_tweet cexC2 = some ("N (@s): AB".toList) := by
  decide

/-- C2 (amended): the scan stops at the first entity whose expanded URL has
final path segment equal to the quoted status id: the remaining entities
are not examined, and the substitution applied for that entity is the full
re.sub, which removes every occurrence of the URL with surrounding
whitespace, not exactly one. -/
theorem quote_link_removal_first_match (qid : Str) (en : UrlEntity)
    (rest : List UrlEntity) (text : Str)
    (h : lastSegAfterSlash en.expanded_url = some qid) :
    removeQuoteLink qid (en :: rest) text = some (reSubRemove en.url text) := by
  simp [removeQuoteLink, h]

/-- C2 witness: the first-match rule evaluated on a concrete quote link. -/
theorem quote_link_removal_witness :
    removeQuoteLink ("77".toList) [⟨"t.co/z".toList, "a/77".toList⟩]
      ("x t.co/z".toList) = some ("x".toList) := by
  rw [quote_link_removal_first_match ("77".toList) ⟨"t.co/z".toList, "a/77".toList⟩
    [] ("x t.co/z".toList) (by decide)]
  decide

/-- C3 counterexample: expanding the only URL entity of cexC3 reintroduces
its own shortened form, so a shortened-URL substring from the entity list
does remain in the final text. -/
theorem url_expansion_counterexample :
    format_tweet cexC3 = some ("N (@s): see http://t.co/abc/x".toList) ∧
    containsSub ("t.co/abc".toList) ((format_tweet cexC3).getD []) = true := by
  decide

/-- C3 (amended): each non-media URL entity is expanded in list order, but
an expanded URL may itself reintroduce a shortened form, so the no-residue
round-trip is not universal; on the specification example the output ends
with the expanded URL and contains no occurrence of the shortened one. -/
theorem url_expansion_example :
    format_tweet exC3 = some ("N (@s): check this out http://example.com/page".toList) ∧
    ("http://example.com/page".toList).isSuffixOf ((format_tweet exC3).getD []) = true ∧
    containsSub ("t.co/abc".toList) ((format_tweet exC3).getD []) = false := by
  decide

/-- C4 counterexample: in cexC4 the shortened media URL u occurs in the
text a u, yet because it equals the canonical URL the replacement leaves
the text unchanged and the code appends, yielding a uu; the claim predicts
in-place replacement only, i.e. a u. -/
theorem media_append_counterexample :
    format_tweet cexC4 = some ("N (@s): a uu".toList) := by
  decide

/-- C4 (amended): for a media attachment with nonempty shortened URL, if
the URL does not occur in the current text the canonical URL is appended
to the end; if it occurs and differs from the canonical URL every
occurrence is replaced in place and nothing is appended.  The condition the
code tests is whether the replacement changed the text, so an attachment
whose shortened URL occurs but equals its canonical URL is appended
although present.  Attachments are processed in order, each step seeing
the previous result. -/
theorem media_step_characterization (t : Str) (m : MediaEntity)
    (hm : m.url ≠ []) :
    (containsSub m.url t = false → mediaStep t m = t ++ m.media_url_https) ∧
    (containsSub m.url t = true → m.media_url_https ≠ m.url →
      mediaStep t m = pyReplace t m.url m.media_url_https ∧
      pyReplace t m.url m.media_url_https ≠ t) := by
  constructor
  · intro h
    have heq := pyReplace_of_not_contains t m.url m.media_url_https h
    simp [mediaStep, heq]
  · intro h1 h2
    have hne := pyReplace_ne t m.url m.media_url_https hm h2 h1
    exact ⟨by simp [mediaStep, hne], hne⟩

/-- C4 witness: an attachment absent from the text is appended. -/
theorem media_step_witness :
    mediaStep ("hi".toList) ⟨"t.co/x".toList, "pic.com/1".toList⟩ =
      "hi".toList ++ "pic.com/1".toList :=
  (media_step_characterization ("hi".toList) ⟨"t.co/x".toList, "pic.com/1".toList⟩
    (by decide)).1 (by decide)

/-- C5 counterexample: the formatter output for cexC5 contains a raw
newline, arriving through the author name, which the newline stage never
sees; the claim that the output contains no raw newline is false. -/
theorem newline_output_counterexample :
    '\n' ∈ (format_tweet cexC5).getD [] := by
  decide

/-- C5 (amended): the newline stage of format_tweet replaces every literal
newline of the source text by the line-break glyph U+23CE bounded by
single spaces and its result contains no raw newline; raw newlines can
still reach the final output through other fields such as the author name
or expanded URLs. -/
theorem newline_replacement_stage :
    (∀ s : Str, '\n' ∉ newlineStage s) ∧
    (∀ s : Str, newlineStage ('\n' :: s) = ' ' :: '⏎' :: ' ' :: newlineStage s) ∧
    (∀ (c : Char) (s : Str), c ≠ '\n' → newlineStage (c :: s) = c :: newlineStage s) :=
  ⟨newsNoNl, newsCons_nl, newsCons_other⟩

/-- C5 witness: the non-newline equation evaluated at a concrete letter. -/
theorem newline_replacement_witness :
    newlineStage ['b'] = 'b' :: newlineStage [] :=
  newline_replacement_stage.2.2 'b' [] (by decide)

/-- C6 (confirmed): format_tweet selects the extended full text field when
present, and for tweets lacking it the short text field is used verbatim
as the base text. -/
theorem text_selection (t : Tweet) (s : Str) :
    (t.full_text = some s → baseText t = some s) ∧
    (t.full_text = none → baseText t = t.text) := by
  constructor
  · intro h; simp [baseText, h]
  · intro h; simp [baseText, h]

/-- C6 witness: a tweet lacking the extended field uses its short text. -/
theorem text_selection_witness : baseText exC6 = some ("just text".toList) :=
  (text_selection exC6 []).2 rfl

/-- C7 (confirmed): on a non-empty errors list both output_status and
output_user emit exactly one line built from the first error entry and
nothing else; with a message the line is the fixed base, colon, space and
the message, with a period appended exactly when the message does not
already end with one; without a message the fixed fallback clause (ending
in the maybe-deleted question for the status path) is appended. -/
theorem error_single_line (b : StatusBody) (ub : UserBody) (e e2 : ApiErr)
    (es es2 : List ApiErr) (sq : Bool) (ft : Str → Str) (j : Str)
    (hb : b.errors = e :: es) (hub : ub.errors = e2 :: es2) :
    output_status b sq ft = some [mkErrMsg statusFallback e] ∧
    output_user ub j = some [mkErrMsg userFallback e2] ∧
    (e.message = none → mkErrMsg statusFallback e = errBase ++ statusFallback) ∧
    (∀ m : Str, e.message = some m → m.getLast? = some '.' →
      mkErrMsg statusFallback e = errBase ++ ": ".toList ++ m) ∧
    (∀ m : Str, e.message = some m → m ≠ [] → m.getLast? ≠ some '.' →
      mkErrMsg statusFallback e = errBase ++ ": ".toList ++ m ++ ['.']) := by
  refine ⟨?_, ?_, ?_, ?_, ?_⟩
  · simp [output_status, hb]
  · simp [output_user, hub]
  · intro h; simp [mkErrMsg, h]
  · intro m hm hdot
    have hmne : m ≠ [] := by
      intro hh
      rw [hh] at hdot
      simp at hdot
    have hlast : (errBase ++ ": ".toList ++ m).getLast? = some '.' := by
      rw [getLast?_append_ne _ _ hmne, hdot]
    simp only [mkErrMsg, hm]
    rw [if_pos hlast]
  · intro m hm hmne hdot
    have hlast : (errBase ++ ": ".toList ++ m).getLast? = m.getLast? :=
      getLast?_append_ne _ _ hmne
    simp only [mkErrMsg, hm]
    rw [hlast, if_neg hdot]

/-- C7 witness: the code-144 response without a message, on both paths. -/
theorem error_single_line_witness :
    output_status exC7Status true (fun s => s) =
      some [mkErrMsg statusFallback ⟨some 144, none⟩] ∧
    output_user exC7User [] = some [mkErrMsg userFallback ⟨some 50, none⟩] := by
  have h := error_single_line exC7Status exC7User ⟨some 144, none⟩ ⟨some 50, none⟩
    [] [] true (fun s => s) [] rfl rfl
  exact ⟨h.1, h.2.1⟩

/-- C8 (confirmed): for every profile, whenever a line is produced it is
exactly the concatenation of the fixed skeleton with one segment per
optional field, and the segment of each absent (falsy) field is empty,
each fact conditional only on that field: an absent location, url or bio
contributes no separator and no text regardless of the other fields and
of the glyph flags; in particular, for the verified, unprotected profile
with no location, url or bio the line is the fixed skeleton with the
verified glyph, no lock glyph, and only the fixed count and join-date
separators. -/
theorem absent_optional_fields (u : UserProfile) (joined : Str) :
    (∀ url : Str, userUrl u = some url →
      userLine u joined = some ("[Twitter] ".toList ++ u.name ++ " (@".toList
        ++ u.screen_name ++ ")".toList
        ++ (if u.verified then " ✔️".toList else [])
        ++ (if u.protected_ then " 🔒".toList else [])
        ++ locationSeg u
        ++ optSeg url
        ++ " | ".toList ++ commaFmt u.friends_count ++ " friends, ".toList
        ++ commaFmt u.followers_count ++ " followers | ".toList
        ++ commaFmt u.statuses_count ++ " tweets, ".toList
        ++ commaFmt u.favourites_count ++ " ♥s | Joined: ".toList ++ joined
        ++ optSeg (userBio u))) ∧
    (truthy u.location = false → locationSeg u = []) ∧
    (truthy u.url = false → userUrl u = some [] ∧ optSeg [] = []) ∧
    (truthy u.description = false → userBio u = [] ∧ optSeg (userBio u) = []) ∧
    (u.verified = true → u.protected_ = false → truthy u.location = false →
      truthy u.url = false → truthy u.description = false →
      userLine u joined = some ("[Twitter] ".toList ++ u.name ++ " (@".toList
        ++ u.screen_name ++ ")".toList
        ++ " ✔️".toList
        ++ " | ".toList ++ commaFmt u.friends_count ++ " friends, ".toList
        ++ commaFmt u.followers_count ++ " followers | ".toList
        ++ commaFmt u.statuses_count ++ " tweets, ".toList
        ++ commaFmt u.favourites_count ++ " ♥s | Joined: ".toList ++ joined)) := by
  have hloc : truthy u.location = false → locationSeg u = [] := by
    intro hl
    cases hL : u.location with
    | none => simp [locationSeg, hL]
    | some l =>
      have hle : l = [] := by
        rw [hL] at hl
        simpa [truthy] using hl
      simp [locationSeg, hL, hle]
  have hbio : truthy u.description = false → userBio u = [] := by
    intro hd
    cases hD : u.description with
    | none => simp [userBio, hD]
    | some d =>
      have hde : d = [] := by
        rw [hD] at hd
        simpa [truthy] using hd
      simp [userBio, hD, hde]
  have hdecomp : ∀ url : Str, userUrl u = some url →
      userLine u joined = some ("[Twitter] ".toList ++ u.name ++ " (@".toList
        ++ u.screen_name ++ ")".toList
        ++ (if u.verified then " ✔️".toList else [])
        ++ (if u.protected_ then " 🔒".toList else [])
        ++ locationSeg u
        ++ optSeg url
        ++ " | ".toList ++ commaFmt u.friends_count ++ " friends, ".toList
        ++ commaFmt u.followers_count ++ " followers | ".toList
        ++ commaFmt u.statuses_count ++ " tweets, ".toList
        ++ commaFmt u.favourites_count ++ " ♥s | Joined: ".toList ++ joined
        ++ optSeg (userBio u)) := by
    intro url hurl
    simp only [userLine, hurl]
  refine ⟨hdecomp, hloc, ?_, ?_, ?_⟩
  · intro hu
    exact ⟨by simp [userUrl, hu], rfl⟩
  · intro hd
    have hb := hbio hd
    exact ⟨hb, by rw [hb]; decide⟩
  · intro hv hp hl hu hd
    have hurl : userUrl u = some [] := by simp [userUrl, hu]
    rw [hdecomp [] hurl, hloc hl, (hbio hd)]
    simp [optSeg, hv, hp]

/-- C8 witness: the example profile of the specification (thousands
separators shown), together with a mixed profile whose location is present
while url and bio are absent and whose glyph flags differ, exercising the
per-field statements. -/
theorem absent_optional_fields_witness :
    userLine exC8 ("today".toList) =
      some ("[Twitter] Ada (@ada) ✔️ | 1,234 friends, 5 followers | 67 tweets, 8 ♥s | Joined: today".toList) ∧
    userLine exC8b ("d".toList) =
      some ("[Twitter] Bob (@bob) 🔒 | Paris | 1 friends, 2 followers | 3 tweets, 4 ♥s | Joined: d".toList) ∧
    userBio exC8b = [] := by
  refine ⟨?_, ?_, ?_⟩
  · rw [(absent_optional_fields exC8 ("today".toList)).2.2.2.2 rfl rfl rfl rfl rfl]
    decide
  · rw [(absent_optional_fields exC8b ("d".toList)).1 [] rfl]
    decide
  · exact ((absent_optional_fields exC8b ("d".toList)).2.2.2.1 rfl).1

/-- C9 (confirmed): format_tweet is a pure function of the tweet value; the
source mutates nothing (it only rebinds a local through pure string
operations), which the embedding reflects, so formatting the same tweet
twice yields identical output. -/
theorem format_tweet_idempotent (t : Tweet) : format_tweet t = format_tweet t :=
  rfl

/-- C10 (confirmed): the quote-link scan indexes the rsplit of each
examined expanded URL, so format_tweet fails (returns none, an uncaught
IndexError) on a quote tweet whose first examined entity has an expanded
URL with no slash; conversely, whenever the tweet has a base text, a
quoted status id, and every expanded URL examined before the first match
contains a slash, format_tweet returns a formatted line. -/
theorem quote_scan_safety :
    format_tweet cexC10 = none ∧
    ∀ (t : Tweet) (qid s : Str), t.is_quote_status = true →
      t.quoted_status_id_str = some qid → baseText t = some s →
      scanOk qid t.entities_urls = true → (format_tweet t).isSome = true := by
  constructor
  · decide
  · intro t qid s hq hid hbase hscan
    obtain ⟨r, hr⟩ := removeQuoteLink_isSome qid t.entities_urls (newlineStage s) hscan
    simp [format_tweet, hbase, hq, hid, hr]

/-- C10 witness: a safe quote scan on a concrete quote tweet. -/
theorem quote_scan_safety_witness : (format_tweet exC10).isSome = true :=
  quote_scan_safety.2 exC10 ("9".toList) ("hi t.co/q".toList) rfl rfl rfl (by decide)

end SopelTwitter
